import Mathlib

/-!
Shallow embedding of the analytics core of the crypto-product-intelligence
platform, together with theorems checking the specification's claims.

Numbers are modelled as exact rationals (`ℚ`); pandas/NumPy `NaN` ("null")
cells are modelled as `Option`; a Python `raise` is an `Except.error`.
A DataFrame is a record holding its column-name list (for the schema
checks, which only inspect column names) and its rows.

Sources embedded:
- `src/analytics/liquidity_concentration.py` (`calculate_liquidity_concentration`)
- `src/comparison/compare_coins.py` (`compare_assets`)
- the KPI engine's downside-risk metric, whose implementation is absent
  from the source tree (only its caller `main.py` remains), is modelled
  from the spec and marked as such.
-/

/-- Model of Python's `round(x, d)`: round to `d` decimal places, ties to
even (banker's rounding), on exact rationals. -/
def roundHalfEven (x : ℚ) : ℤ :=
  let n := ⌊x⌋
  let f := x - (n : ℚ)
  if f < 1/2 then n
  else if 1/2 < f then n + 1
  else if 2 ∣ n then n else n + 1

/-- `round(x, d)` as a rational. -/
def roundTo (d : ℕ) (x : ℚ) : ℚ :=
  (roundHalfEven (x * 10 ^ d) : ℚ) / 10 ^ d

/-! ## Liquidity concentration scorer (`src/analytics/liquidity_concentration.py`) -/

/-- One input row as seen by the scorer: the `asset` key and the `volume`
cell (`none` = NaN).  Other columns are irrelevant to this stage. -/
structure VolRow where
  asset : String
  volume : Option ℚ
deriving DecidableEq

/-- The input DataFrame of the scorer: column names plus rows. -/
structure VolTable where
  cols : List String
  rows : List VolRow
deriving DecidableEq

/-- One output row of the scorer (a row of `concentration_df`). -/
structure ConcRow where
  asset : String
  total_volume : Option ℚ
  top5_volume : Option ℚ
  top5_share : Option ℚ
  liquidity_health : Option ℚ
  concentration_risk : String
  liquidity_rank : Option ℕ
deriving DecidableEq

/-- `group["volume"].dropna()` for the group of `a`:
the non-null volumes of the rows whose asset equals `a`. -/
def volsOf (t : VolTable) (a : String) : List ℚ :=
  (t.rows.filter (fun r => decide (r.asset = a))).filterMap (·.volume)

/-- `volumes.sort_values(ascending=False).head(5).sum()`. -/
def top5Volume (vols : List ℚ) : ℚ :=
  ((List.insertionSort (· ≥ ·) vols).take 5).sum

/-- `top5_volume / total_volume if total_volume > 0 else np.nan`. -/
def shareOf (vols : List ℚ) : Option ℚ :=
  if 0 < vols.sum then some (top5Volume vols / vols.sum) else none

/-- The risk-classification chain of the scorer (lines 49-56):
`Unknown` on NaN, `High` when `share > 0.60`, `Medium` when
`share >= 0.40`, `Low` otherwise. -/
def classifyRisk (s : Option ℚ) : String :=
  match s with
  | none => "Unknown"
  | some v => if 3/5 < v then "High" else if 2/5 ≤ v then "Medium" else "Low"

/-- The per-group body of the scorer's loop.  `vols` is the group's
`volume` column after `dropna()`; an empty group yields the all-NaN /
`Unknown` row.  `liquidity_rank` is attached afterwards. -/
def mkConcRow (a : String) (vols : List ℚ) : ConcRow :=
  if vols = [] then
    { asset := a, total_volume := none, top5_volume := none, top5_share := none
      liquidity_health := none, concentration_risk := "Unknown", liquidity_rank := none }
  else
    { asset := a
      total_volume := some (roundTo 2 vols.sum)
      top5_volume := some (roundTo 2 (top5Volume vols))
      top5_share := (shareOf vols).map (roundTo 4)
      liquidity_health := ((shareOf vols).map (fun s => (1 - s) * 100)).map (roundTo 2)
      concentration_risk := classifyRisk (shareOf vols)
      liquidity_rank := none }

/-- pandas `rank(ascending=False, method="dense")` over a column with
nulls: a null keeps no rank; a value's dense rank is one plus the number
of distinct non-null values strictly greater than it. -/
def denseRankDesc (l : List (Option ℚ)) : List (Option ℕ) :=
  l.map (fun x? => x?.map (fun v =>
    1 + ((l.filterMap id).dedup.countP (fun u => decide (v < u)))))

/-- The group keys of `df.groupby("asset")`: the distinct assets, in
sorted order (pandas sorts group keys by default). -/
def assetKeys (t : VolTable) : List String :=
  List.insertionSort (· ≤ ·) (t.rows.map (·.asset)).dedup

/-- The `results` list assembled by the scorer's group loop. -/
def concBase (t : VolTable) : List ConcRow :=
  (assetKeys t).map (fun a => mkConcRow a (volsOf t a))

/-- The scorer's `liquidity_rank` column (dense rank of the assembled
`liquidity_health` column, descending, nulls unranked). -/
def concRanks (t : VolTable) : List (Option ℕ) :=
  denseRankDesc ((concBase t).map (·.liquidity_health))

/-- The scorer's output rows: the group-loop rows with the rank column
attached. -/
def concRows (t : VolTable) : List ConcRow :=
  List.zipWith (fun b r => { b with liquidity_rank := r }) (concBase t) (concRanks t)

/-- Embedding of `calculate_liquidity_concentration`: schema check on
{asset, volume}, per-asset concentration metrics, then the dense
liquidity rank over the assembled column.

A zero-row input passes the column check but leaves the `results` list
empty; `pd.DataFrame([])` then has no columns, and the access to the
`liquidity_health` column when attaching `liquidity_rank` raises
`KeyError` — modelled as the error branch on an empty row list (the
input has rows exactly when `groupby` yields at least one group, i.e.
exactly when `results` is nonempty). -/
def calculate_liquidity_concentration (t : VolTable) :
    Except String (List ConcRow) :=
  if "asset" ∈ t.cols ∧ "volume" ∈ t.cols then
    if t.rows = [] then Except.error "KeyError: liquidity_health"
    else Except.ok (concRows t)
  else Except.error "Missing required columns for liquidity analysis"

/-! ## Asset comparator (`src/comparison/compare_coins.py`) -/

/-- One row of the comparator's input KPI DataFrame (`none` = NaN). -/
structure KpiRow where
  asset : String
  momentum : Option ℚ
  liquidity_proxy : Option ℚ
  volume_trend : Option ℚ
  downside_risk : Option ℚ
deriving DecidableEq

/-- The comparator's input DataFrame: column names plus rows. -/
structure KpiTable where
  cols : List String
  rows : List KpiRow
deriving DecidableEq

/-- The comparator's non-fatal advisory signals (`print` warnings). -/
inductive CompareWarning where
  | firstFive (total : ℕ)
  | truncated (given : ℕ)
  | skippedInvalid (names : List String)
deriving DecidableEq

/-- The comparator's `raise` sites. -/
inductive CompareError where
  | missingCols (cols : List String)
  | tooFewRequested (n : ℕ)
  | notEnoughValid (found : ℕ) (available : List String)
  | rankCastOnNull (col : String)
deriving DecidableEq

/-- One row of the returned `main_comparison` DataFrame.  The source
renders the four KPI cells as strings ("12.34%", "N/A", thousands
separators); that string rendering is presentation-only and is kept as
the underlying numeric cells here. -/
structure DisplayRow where
  Asset : String
  Momentum : Option ℚ
  LiquidityProxy : Option ℚ
  VolumeTrend : Option ℚ
  DownsideRisk : Option ℚ
deriving DecidableEq

/-- pandas `rank(ascending=False, method='min')` over a column with
nulls: null ranks null; otherwise one plus the count of strictly
greater non-null entries. -/
def rankColDesc (l : List (Option ℚ)) : List (Option ℕ) :=
  l.map (fun x? => x?.map (fun v =>
    1 + l.countP (fun y? => match y? with | some w => decide (v < w) | none => false)))

/-- pandas `rank(ascending=True, method='min')` over a column with nulls. -/
def rankColAsc (l : List (Option ℚ)) : List (Option ℕ) :=
  l.map (fun x? => x?.map (fun v =>
    1 + l.countP (fun y? => match y? with | some w => decide (w < v) | none => false)))

/-- `.astype(int)` on a rank column: succeeds only when no entry is
null; a NaN rank makes the cast raise. -/
def seqOption {α : Type} : List (Option α) → Option (List α)
  | [] => some []
  | none :: _ => none
  | some a :: rest => (seqOption rest).map (a :: ·)

/-- `kpi_df['asset'].unique()`: the distinct assets, first-occurrence
order. -/
def kpiAvailable (kpi : KpiTable) : List String := (kpi.rows.map (·.asset)).dedup

/-- The asset-selection block of `compare_assets` (lines 41-78):
`None` selects the first five assets by row order; an explicit list is
checked for length, truncated to five, filtered against the available
assets, and must leave at least two valid entries. -/
def selectAssets (kpi : KpiTable) (assets : Option (List String)) :
    Except CompareError (List CompareWarning × List String) :=
  match assets with
  | none =>
    Except.ok
      ((if 5 < kpi.rows.length then [CompareWarning.firstFive kpi.rows.length] else []),
       (kpi.rows.map (·.asset)).take 5)
  | some l =>
    if l.length < 2 then Except.error (CompareError.tooFewRequested l.length)
    else
      let w1 := if 5 < l.length then [CompareWarning.truncated l.length] else []
      let l5 := if 5 < l.length then l.take 5 else l
      let sel := l5.filter (fun a => decide (a ∈ kpiAvailable kpi))
      let invalid := l5.filter (fun a => decide (¬ a ∈ kpiAvailable kpi))
      let w2 := if invalid ≠ [] then [CompareWarning.skippedInvalid invalid] else []
      if sel.length < 2 then
        Except.error (CompareError.notEnoughValid sel.length (kpiAvailable kpi))
      else Except.ok (w1 ++ w2, sel)

/-- `kpi_df[kpi_df['asset'].isin(selected_assets)]`. -/
def selectedRows (kpi : KpiTable) (sel : List String) : List KpiRow :=
  kpi.rows.filter (fun r => decide (r.asset ∈ sel))

/-- `comparison_df.sort_values('asset')`. -/
def sortedSelectedRows (kpi : KpiTable) (sel : List String) : List KpiRow :=
  List.insertionSort (fun a b => a.asset ≤ b.asset) (selectedRows kpi sel)

/-- The final display slice of one row (string formatting of the cells
is presentation-only and not applied). -/
def toDisplay (r : KpiRow) : DisplayRow :=
  { Asset := r.asset, Momentum := r.momentum, LiquidityProxy := r.liquidity_proxy
    VolumeTrend := r.volume_trend, DownsideRisk := r.downside_risk }

/-- The comparator's tail after asset selection: the four
`rank(...).astype(int)` columns (whose values the source then discards,
but whose `astype(int)` raises on a null cell), then the display
slice. -/
def compareWith (kpi : KpiTable) (w : List CompareWarning) (sel : List String) :
    Except CompareError (List CompareWarning × List DisplayRow) :=
  let sorted := sortedSelectedRows kpi sel
  match seqOption (rankColDesc (sorted.map (·.momentum))) with
  | none => Except.error (CompareError.rankCastOnNull "momentum")
  | some _ =>
    match seqOption (rankColDesc (sorted.map (·.liquidity_proxy))) with
    | none => Except.error (CompareError.rankCastOnNull "liquidity_proxy")
    | some _ =>
      match seqOption (rankColDesc (sorted.map (·.volume_trend))) with
      | none => Except.error (CompareError.rankCastOnNull "volume_trend")
      | some _ =>
        match seqOption (rankColAsc (sorted.map (·.downside_risk))) with
        | none => Except.error (CompareError.rankCastOnNull "downside_risk")
        | some _ => Except.ok (w, sorted.map toDisplay)

/-- The comparator's required KPI columns. -/
def requiredKpiCols : List String :=
  ["asset", "momentum", "liquidity_proxy", "volume_trend", "downside_risk"]

/-- Embedding of `compare_assets`: schema check, asset selection, then
the post-selection tail `compareWith`. -/
def compare_assets (kpi : KpiTable) (assets : Option (List String)) :
    Except CompareError (List CompareWarning × List DisplayRow) :=
  let missing := requiredKpiCols.filter (fun c => decide (¬ c ∈ kpi.cols))
  if missing ≠ [] then Except.error (CompareError.missingCols missing)
  else
    match selectAssets kpi assets with
    | Except.error e => Except.error e
    | Except.ok (w, sel) => compareWith kpi w sel

/-! ## KPI engine downside risk

Modelled from the spec: the KPI engine (`calculate_kpis`, imported by
`main.py` from `src.kpi.calculate_kpis`) is absent from the source tree
— the file of that name is an unrelated plotting script with no such
function — so the downside-risk metric is modelled from the spec's
words: sample standard deviation (Bessel's correction) of the negative
subset of period-over-period percentage price returns, times 100, and
0.0 (not null) when that dispersion is undefined. -/

/-- Period-over-period fractional price returns of a group's price
column in timestamp order (pandas `pct_change().dropna()`); a zero
baseline price produces no usable (finite) return.  Since prices are
non-negative, a zero baseline can never contribute a negative return,
so skipping it leaves the negative subset unchanged. -/
def pctChanges : List ℚ → List ℚ
  | [] => []
  | [_] => []
  | a :: b :: rest => (if a ≠ 0 then [(b - a) / a] else []) ++ pctChanges (b :: rest)

/-- Arithmetic mean of a list of rationals. -/
def listMean (l : List ℚ) : ℚ := l.sum / l.length

/-- Sample variance with Bessel's correction (meaningful for two or
more observations). -/
def sampleVar (l : List ℚ) : ℚ :=
  (l.map (fun x => (x - listMean l) ^ 2)).sum / ((l.length : ℚ) - 1)

/-- Modelled from the spec: the KPI engine's `downside_risk` of one
asset group, given the group's prices in timestamp order.  It is a
total (never-null) value: 100 times the sample standard deviation of
the negative returns when at least two exist, and 0.0 otherwise. -/
noncomputable def downside_risk (prices : List ℚ) : ℝ :=
  let negs := (pctChanges prices).filter (fun r => decide (r < 0))
  if 2 ≤ negs.length then 100 * Real.sqrt (sampleVar negs) else 0

/-! ## The spec's weighted composite score

Written from the spec's words (§4.3), for comparison against the
embedded `compare_assets`: the source revision under `src/` computes no
such score. -/

/-- The spec's defensive clamp: null or negative KPI cells count as 0. -/
def clampKpi (x : Option ℚ) : ℚ := max (x.getD 0) 0

/-- The spec's composite score without concentration data:
`momentum*0.4 + liquidity_proxy*0.3 + (100 - downside_risk)*0.3`. -/
def specWeightedScoreNoConc (r : KpiRow) : ℚ :=
  clampKpi r.momentum * (4/10) + clampKpi r.liquidity_proxy * (3/10)
    + (100 - clampKpi r.downside_risk) * (3/10)

/-! ## Helper lemmas about the scorer -/

lemma shareOf_nil : shareOf [] = none := by simp [shareOf]

lemma mkConcRow_asset (a : String) (vols : List ℚ) : (mkConcRow a vols).asset = a := by
  by_cases h : vols = [] <;> simp [mkConcRow, h]

lemma mkConcRow_risk (a : String) (vols : List ℚ) :
    (mkConcRow a vols).concentration_risk = classifyRisk (shareOf vols) := by
  by_cases h : vols = []
  · subst h; simp [mkConcRow, shareOf_nil, classifyRisk]
  · simp [mkConcRow, h]

lemma mkConcRow_share (a : String) (vols : List ℚ) :
    (mkConcRow a vols).top5_share = (shareOf vols).map (roundTo 4) := by
  by_cases h : vols = []
  · subst h; simp [mkConcRow, shareOf_nil]
  · simp [mkConcRow, h]

lemma mkConcRow_health (a : String) (vols : List ℚ) :
    (mkConcRow a vols).liquidity_health =
      ((shareOf vols).map (fun s => (1 - s) * 100)).map (roundTo 2) := by
  by_cases h : vols = []
  · subst h; simp [mkConcRow, shareOf_nil]
  · simp [mkConcRow, h]

lemma calcLiq_eq_ok (t : VolTable) (h : "asset" ∈ t.cols ∧ "volume" ∈ t.cols)
    (hne : t.rows ≠ []) :
    calculate_liquidity_concentration t = Except.ok (concRows t) := by
  simp [calculate_liquidity_concentration, h.1, h.2, hne]

lemma concRanks_length (t : VolTable) : (concRanks t).length = (concBase t).length := by
  simp [concRanks, denseRankDesc]

lemma concRows_length (t : VolTable) : (concRows t).length = (concBase t).length := by
  simp [concRows, concRanks_length]

lemma concBase_getElem (t : VolTable) (i : ℕ) (hi : i < (concBase t).length) :
    (concBase t).get ⟨i, hi⟩ =
      mkConcRow ((assetKeys t).get ⟨i, by simpa [concBase] using hi⟩)
        (volsOf t ((assetKeys t).get ⟨i, by simpa [concBase] using hi⟩)) := by
  simp [concBase]

lemma concRows_get_eq (t : VolTable) (i : ℕ) (hi : i < (concRows t).length)
    (h1 : i < (concBase t).length) (h2 : i < (concRanks t).length) :
    (concRows t).get ⟨i, hi⟩ =
      { (concBase t).get ⟨i, h1⟩ with liquidity_rank := (concRanks t).get ⟨i, h2⟩ } := by
  simp [concRows, List.get_eq_getElem, List.getElem_zipWith]

/-- Every output row of the scorer is the group row of its own asset,
with some rank attached. -/
lemma mem_concRows (t : VolTable) (r : ConcRow) (hr : r ∈ concRows t) :
    r.asset ∈ assetKeys t ∧
      r.concentration_risk = classifyRisk (shareOf (volsOf t r.asset)) ∧
      r.top5_share = (shareOf (volsOf t r.asset)).map (roundTo 4) ∧
      r.liquidity_health =
        ((shareOf (volsOf t r.asset)).map (fun s => (1 - s) * 100)).map (roundTo 2) := by
  obtain ⟨n, hn, hget⟩ := List.mem_iff_getElem.mp hr
  have h1 : n < (concBase t).length := by
    have := concRows_length t; omega
  have h2 : n < (concRanks t).length := by
    have := concRows_length t; have := concRanks_length t; omega
  have hk : n < (assetKeys t).length := by
    simpa [concBase] using h1
  have hr' : r = { (concBase t).get ⟨n, h1⟩ with
      liquidity_rank := (concRanks t).get ⟨n, h2⟩ } := by
    rw [← hget]; exact concRows_get_eq t n hn h1 h2
  set a := (assetKeys t).get ⟨n, hk⟩ with ha
  have hb : (concBase t).get ⟨n, h1⟩ = mkConcRow a (volsOf t a) := by
    rw [concBase_getElem]
  have hasset : r.asset = a := by
    rw [hr', hb]; simpa using mkConcRow_asset a (volsOf t a)
  refine ⟨?_, ?_, ?_, ?_⟩
  · rw [hasset]; exact List.get_mem (assetKeys t) n hk
  · rw [hasset, hr', hb]; simpa using mkConcRow_risk a (volsOf t a)
  · rw [hasset, hr', hb]; simpa using mkConcRow_share a (volsOf t a)
  · rw [hasset, hr', hb]; simpa using mkConcRow_health a (volsOf t a)

/-! ## Risk classification case lemmas -/

lemma classifyRisk_none : classifyRisk none = "Unknown" := rfl

lemma classifyRisk_high {s : ℚ} (h : 3/5 < s) : classifyRisk (some s) = "High" := by
  simp [classifyRisk, h]

lemma classifyRisk_medium {s : ℚ} (h1 : 2/5 ≤ s) (h2 : s ≤ 3/5) :
    classifyRisk (some s) = "Medium" := by
  simp [classifyRisk, not_lt.mpr h2, h1]

lemma classifyRisk_low {s : ℚ} (h : s < 2/5) : classifyRisk (some s) = "Low" := by
  have h1 : ¬ 3/5 < s := by linarith
  have h2 : ¬ 2/5 ≤ s := not_le.mpr h
  simp [classifyRisk, h1, h2]

/-! ## Claim theorems (scorer) -/

/-- Claim C2: for every nonempty input table with the asset and volume
columns (a zero-row table makes the source raise a `KeyError`, so it
has no output rows), each output row's `concentration_risk` matches
the threshold table on the group's top-5 share: Unknown on null, High
strictly above 0.60, Medium on [0.40, 0.60] (0.60 itself included),
Low below 0.40. -/
theorem claim_C2_risk_thresholds (t : VolTable)
    (hc : "asset" ∈ t.cols ∧ "volume" ∈ t.cols) (hne : t.rows ≠ []) :
    ∃ out, calculate_liquidity_concentration t = Except.ok out ∧
      ∀ r ∈ out,
        (shareOf (volsOf t r.asset) = none → r.concentration_risk = "Unknown") ∧
        (r.top5_share = none → r.concentration_risk = "Unknown") ∧
        ∀ s, shareOf (volsOf t r.asset) = some s →
          (3/5 < s → r.concentration_risk = "High") ∧
          (2/5 ≤ s → s ≤ 3/5 → r.concentration_risk = "Medium") ∧
          (s < 2/5 → r.concentration_risk = "Low") ∧
          (s = 3/5 → r.concentration_risk = "Medium") := by
  refine ⟨concRows t, calcLiq_eq_ok t hc hne, ?_⟩
  intro r hr
  obtain ⟨-, hrisk, hshare, -⟩ := mem_concRows t r hr
  refine ⟨?_, ?_, ?_⟩
  · intro h; rw [hrisk, h, classifyRisk_none]
  · intro h
    rw [h] at hshare
    have h0 : shareOf (volsOf t r.asset) = none := by
      cases hs : shareOf (volsOf t r.asset) with
      | none => rfl
      | some v => rw [hs] at hshare; simp at hshare
    rw [hrisk, h0, classifyRisk_none]
  · intro s hs
    rw [hrisk, hs]
    exact ⟨fun h => classifyRisk_high h,
      fun h1 h2 => classifyRisk_medium h1 h2,
      fun h => classifyRisk_low h,
      fun h => classifyRisk_medium (by rw [h]; norm_num) (by rw [h])⟩

/-- The zero-row table with both required columns: the scorer's empty
`results` list makes `pd.DataFrame([])` column-less, and the
`liquidity_health` column access raises `KeyError`. -/
def emptyVolTable : VolTable := { cols := ["asset", "volume"], rows := [] }

/-- Claim C7 as stated is false on the code: the scorer errors on the
zero-row table even though both required columns are present. -/
theorem claim_C7_counterexample :
    (∃ e, calculate_liquidity_concentration emptyVolTable = Except.error e) ∧
      "asset" ∈ emptyVolTable.cols ∧ "volume" ∈ emptyVolTable.cols :=
  ⟨⟨"KeyError: liquidity_health",
      by simp [calculate_liquidity_concentration, emptyVolTable]⟩,
    by simp [emptyVolTable], by simp [emptyVolTable]⟩

/-- Claim C7 amended: the scorer raises exactly when the `asset` or
`volume` column is absent (the validation error) or when the table has
no rows (where the empty results frame makes the `liquidity_health`
column access raise a `KeyError`); every nonempty table with both
columns is processed without a schema error, and an error carries no
partial rows. -/
theorem claim_C7_error_iff (t : VolTable) :
    (∃ e, calculate_liquidity_concentration t = Except.error e) ↔
      ("asset" ∉ t.cols ∨ "volume" ∉ t.cols ∨ t.rows = []) := by
  by_cases hc : "asset" ∈ t.cols ∧ "volume" ∈ t.cols
  · by_cases hne : t.rows = []
    · constructor
      · intro _
        exact Or.inr (Or.inr hne)
      · intro _
        exact ⟨"KeyError: liquidity_health",
          by rw [calculate_liquidity_concentration, if_pos hc, if_pos hne]⟩
    · rw [calcLiq_eq_ok t hc hne]
      simp [hc.1, hc.2, hne]
  · constructor
    · intro _
      rcases not_and_or.mp hc with h | h
      · exact Or.inl h
      · exact Or.inr (Or.inl h)
    · intro _
      refine ⟨"Missing required columns for liquidity analysis", ?_⟩
      rw [calculate_liquidity_concentration, if_neg hc]

/-! ## Rounding bounds -/

lemma roundHalfEven_le (y : ℚ) : (roundHalfEven y : ℚ) ≤ y + 1/2 := by
  have h1 : (⌊y⌋ : ℚ) ≤ y := Int.floor_le y
  have h2 : y < (⌊y⌋ : ℚ) + 1 := Int.lt_floor_add_one y
  simp only [roundHalfEven]
  split_ifs with hf1 hf2 hpar <;> push_cast <;> linarith

lemma le_roundHalfEven (y : ℚ) : y - 1/2 ≤ (roundHalfEven y : ℚ) := by
  have h1 : (⌊y⌋ : ℚ) ≤ y := Int.floor_le y
  have h2 : y < (⌊y⌋ : ℚ) + 1 := Int.lt_floor_add_one y
  simp only [roundHalfEven]
  split_ifs with hf1 hf2 hpar <;> push_cast <;> linarith

/-- Python's `round(x, d)` keeps a value inside `[0, B]` for a whole
number `B`. -/
lemma roundTo_bounds (d B : ℕ) (x : ℚ) (h0 : 0 ≤ x) (hB : x ≤ (B : ℚ)) :
    0 ≤ roundTo d x ∧ roundTo d x ≤ (B : ℚ) := by
  have hp : (0 : ℚ) < 10 ^ d := by positivity
  have hy0 : 0 ≤ x * 10 ^ d := by positivity
  have hyB : x * 10 ^ d ≤ (B : ℚ) * 10 ^ d := by
    exact mul_le_mul_of_nonneg_right hB hp.le
  have hle := roundHalfEven_le (x * 10 ^ d)
  have hge := le_roundHalfEven (x * 10 ^ d)
  have hr0 : 0 ≤ roundHalfEven (x * 10 ^ d) := by
    have hq : (-1 : ℚ) < (roundHalfEven (x * 10 ^ d) : ℚ) := by linarith
    have hz : (-1 : ℤ) < roundHalfEven (x * 10 ^ d) := by exact_mod_cast hq
    omega
  have hrN : roundHalfEven (x * 10 ^ d) ≤ (B : ℤ) * 10 ^ d := by
    have hq : (roundHalfEven (x * 10 ^ d) : ℚ) < ((B : ℤ) * 10 ^ d : ℤ) + 1 := by
      push_cast
      linarith
    have hz : roundHalfEven (x * 10 ^ d) < (B : ℤ) * 10 ^ d + 1 := by exact_mod_cast hq
    omega
  constructor
  · apply div_nonneg _ hp.le
    exact_mod_cast hr0
  · rw [roundTo, div_le_iff₀ hp]
    calc (roundHalfEven (x * 10 ^ d) : ℚ) ≤ ((B : ℤ) * 10 ^ d : ℤ) := by exact_mod_cast hrN
      _ = (B : ℚ) * 10 ^ d := by push_cast; ring

/-! ## Bounds on the concentration metrics -/

lemma top5Volume_nonneg {vols : List ℚ} (h : ∀ v ∈ vols, 0 ≤ v) : 0 ≤ top5Volume vols := by
  apply List.sum_nonneg
  intro x hx
  exact h x ((List.perm_insertionSort _ vols).mem_iff.mp (List.take_subset _ _ hx))

lemma top5Volume_le_sum {vols : List ℚ} (h : ∀ v ∈ vols, 0 ≤ v) :
    top5Volume vols ≤ vols.sum := by
  have hperm := List.perm_insertionSort (· ≥ ·) vols
  have hsum : (List.insertionSort (· ≥ ·) vols).sum = vols.sum := hperm.sum_eq
  have hsplit := List.sum_take_add_sum_drop (List.insertionSort (· ≥ ·) vols) 5
  have hdrop : 0 ≤ ((List.insertionSort (· ≥ ·) vols).drop 5).sum := by
    apply List.sum_nonneg
    intro x hx
    exact h x (hperm.mem_iff.mp (List.drop_subset _ _ hx))
  rw [top5Volume]
  linarith

lemma shareOf_some {vols : List ℚ} {s : ℚ} (hs : shareOf vols = some s) :
    0 < vols.sum ∧ s = top5Volume vols / vols.sum := by
  by_cases h : 0 < vols.sum
  · simp [shareOf, h] at hs
    exact ⟨h, hs.symm⟩
  · simp [shareOf, h] at hs

lemma shareOf_some_bounds {vols : List ℚ} {s : ℚ} (h : ∀ v ∈ vols, 0 ≤ v)
    (hs : shareOf vols = some s) : 0 ≤ s ∧ s ≤ 1 := by
  obtain ⟨hpos, rfl⟩ := shareOf_some hs
  constructor
  · exact div_nonneg (top5Volume_nonneg h) hpos.le
  · rw [div_le_one hpos]
    exact top5Volume_le_sum h

lemma volsOf_nonneg {t : VolTable} (hvol : ∀ r ∈ t.rows, ∀ v, r.volume = some v → 0 ≤ v)
    (a : String) : ∀ v ∈ volsOf t a, 0 ≤ v := by
  intro v hv
  rw [volsOf] at hv
  obtain ⟨row, hrow, hval⟩ := List.mem_filterMap.mp hv
  exact hvol row (List.mem_of_mem_filter hrow) v hval

/-- Claim C8: with all volumes non-negative, every output row has
`top5_share` null or in `[0, 1]` and `liquidity_health` null or in
`[0, 100]`. -/
theorem claim_C8_share_health_ranges (t : VolTable)
    (hvol : ∀ r ∈ t.rows, ∀ v, r.volume = some v → 0 ≤ v) :
    ∀ out, calculate_liquidity_concentration t = Except.ok out →
      ∀ r ∈ out,
        (r.top5_share = none ∨ ∃ s, r.top5_share = some s ∧ 0 ≤ s ∧ s ≤ 1) ∧
        (r.liquidity_health = none ∨
          ∃ x, r.liquidity_health = some x ∧ 0 ≤ x ∧ x ≤ 100) := by
  intro out hout r hr
  have hrows : out = concRows t := by
    by_cases hc : "asset" ∈ t.cols ∧ "volume" ∈ t.cols
    · by_cases hne : t.rows = []
      · rw [calculate_liquidity_concentration, if_pos hc, if_pos hne] at hout
        cases hout
      · rw [calcLiq_eq_ok t hc hne] at hout
        exact (Except.ok.inj hout).symm
    · rw [calculate_liquidity_concentration, if_neg hc] at hout
      cases hout
  subst hrows
  obtain ⟨-, -, hshare, hhealth⟩ := mem_concRows t r hr
  cases hso : shareOf (volsOf t r.asset) with
  | none =>
    rw [hso] at hshare hhealth
    rw [Option.map_none'] at hshare
    rw [Option.map_none', Option.map_none'] at hhealth
    exact ⟨Or.inl hshare, Or.inl hhealth⟩
  | some s =>
    rw [hso] at hshare hhealth
    simp only [Option.map_some'] at hshare hhealth
    have hb := shareOf_some_bounds (volsOf_nonneg hvol r.asset) hso
    have h1 : (1 : ℚ) = ((1 : ℕ) : ℚ) := by norm_num
    have hsb := roundTo_bounds 4 1 s hb.1 (by rw [← h1]; exact hb.2)
    have hx0 : 0 ≤ (1 - s) * 100 := by nlinarith [hb.1, hb.2]
    have hx1 : (1 - s) * 100 ≤ ((100 : ℕ) : ℚ) := by push_cast; nlinarith [hb.1, hb.2]
    have hhb := roundTo_bounds 2 100 ((1 - s) * 100) hx0 hx1
    refine ⟨Or.inr ⟨roundTo 4 s, hshare, hsb.1, ?_⟩,
      Or.inr ⟨roundTo 2 ((1 - s) * 100), hhealth, hhb.1, ?_⟩⟩
    · have h2 := hsb.2
      push_cast at h2
      exact h2
    · have := hhb.2
      push_cast at this
      exact this

/-! ## Dense-rank lemmas -/

/-- Counting step behind dense ranking: in a duplicate-free list
containing `v`, with no element strictly between `w` and `v`, the
elements above `w` are exactly the elements above `v` plus `v` itself. -/
lemma countP_between (v w : ℚ) : ∀ (M : List ℚ), M.Nodup → v ∈ M → w < v →
    (∀ u ∈ M, ¬ (w < u ∧ u < v)) →
    M.countP (fun u => decide (w < u)) = M.countP (fun u => decide (v < u)) + 1 := by
  intro M
  induction M with
  | nil => intro _ hv; cases hv
  | cons a M ih =>
    intro hnd hv hwv hbet
    rw [List.nodup_cons] at hnd
    have tail_eq : ∀ u ∈ M, u ∈ a :: M → True := by intro u _ _; trivial
    rcases List.mem_cons.mp hv with rfl | hvM
    · -- the head is v itself
      rw [List.countP_cons, List.countP_cons]
      have hcong : M.countP (fun u => decide (w < u)) = M.countP (fun u => decide (v < u)) := by
        apply List.countP_congr
        intro u hu
        have hne : u ≠ v := fun h => hnd.1 (h ▸ hu)
        have hb := hbet u (List.mem_cons_of_mem _ hu)
        by_cases hua : v < u
        · simp [hua, lt_trans hwv hua]
        · have hua' : u < v := lt_of_le_of_ne (not_lt.mp hua) hne
          have hnw : ¬ w < u := fun hw => hb ⟨hw, hua'⟩
          simp [hua, hnw]
      rw [hcong]
      simp [hwv, lt_irrefl v]
    · -- v sits in the tail
      have hne : a ≠ v := fun h => hnd.1 (h ▸ hvM)
      have hbet' : ∀ u ∈ M, ¬ (w < u ∧ u < v) :=
        fun u hu => hbet u (List.mem_cons_of_mem _ hu)
      have ih' := ih hnd.2 hvM hwv hbet'
      rw [List.countP_cons, List.countP_cons, ih']
      have hhead : (decide (w < a) : Bool) = decide (v < a) := by
        have hb := hbet a (List.mem_cons_self a M)
        by_cases hva : v < a
        · simp [hva, lt_trans hwv hva]
        · have hva' : a < v := lt_of_le_of_ne (not_lt.mp hva) hne
          have hnw : ¬ w < a := fun hw => hb ⟨hw, hva'⟩
          simp [hva, hnw]
      rw [hhead]
      omega

/-- The rank column entry of an output row is determined by its own
health value and the assembled health column. -/
lemma concRows_rank_formula (t : VolTable) (r : ConcRow) (hr : r ∈ concRows t) :
    r.liquidity_rank = r.liquidity_health.map
      (fun v => 1 +
        ((((concBase t).map (·.liquidity_health)).filterMap id).dedup.countP
          (fun u => decide (v < u)))) := by
  obtain ⟨n, hn, hget⟩ := List.mem_iff_getElem.mp hr
  have h1 : n < (concBase t).length := by have := concRows_length t; omega
  have h2 : n < (concRanks t).length := by
    have := concRows_length t; have := concRanks_length t; omega
  have hL : n < ((concBase t).map (·.liquidity_health)).length := by simpa using h1
  have hr' : r = { (concBase t).get ⟨n, h1⟩ with
      liquidity_rank := (concRanks t).get ⟨n, h2⟩ } := by
    rw [← hget]; exact concRows_get_eq t n hn h1 h2
  have hrank : r.liquidity_rank = (concRanks t).get ⟨n, h2⟩ := by rw [hr']
  have hhealth : r.liquidity_health = ((concBase t).get ⟨n, h1⟩).liquidity_health := by rw [hr']
  rw [hrank, hhealth]
  simp only [concRanks, denseRankDesc, List.get_eq_getElem, List.getElem_map]

/-- A health value occurs in the assembled column iff some output row
carries it. -/
lemma health_mem_rows_iff (t : VolTable) (u : ℚ) :
    u ∈ ((concBase t).map (·.liquidity_health)).filterMap id ↔
      ∃ r ∈ concRows t, r.liquidity_health = some u := by
  rw [List.mem_filterMap]
  constructor
  · rintro ⟨x, hx, hxu⟩
    obtain ⟨b, hb, rfl⟩ := List.mem_map.mp hx
    obtain ⟨n, hn, hgn⟩ := List.mem_iff_getElem.mp hb
    have hrn : n < (concRows t).length := by have := concRows_length t; omega
    have h2 : n < (concRanks t).length := by
      have := concRows_length t; have := concRanks_length t; omega
    refine ⟨(concRows t).get ⟨n, hrn⟩, List.get_mem _ _ _, ?_⟩
    rw [concRows_get_eq t n hrn hn h2]
    show ((concBase t).get ⟨n, hn⟩).liquidity_health = some u
    rw [List.get_eq_getElem, hgn]
    exact hxu
  · rintro ⟨r, hr, hru⟩
    obtain ⟨n, hn, hgn⟩ := List.mem_iff_getElem.mp hr
    have h1 : n < (concBase t).length := by have := concRows_length t; omega
    have h2 : n < (concRanks t).length := by
      have := concRows_length t; have := concRanks_length t; omega
    refine ⟨((concBase t).get ⟨n, h1⟩).liquidity_health, ?_, ?_⟩
    · exact List.mem_map.mpr ⟨(concBase t).get ⟨n, h1⟩, List.get_mem _ _ _, rfl⟩
    · have : r = { (concBase t).get ⟨n, h1⟩ with
          liquidity_rank := (concRanks t).get ⟨n, h2⟩ } := by
        rw [← hgn]; exact concRows_get_eq t n hn h1 h2
      rw [this] at hru
      exact hru

/-- Claim C4: on every nonempty schema-valid table (a zero-row table
makes the source raise a `KeyError` and has no output), the scorer's
`liquidity_rank` is a dense rank over all assets by `liquidity_health`
descending — equal healths share a rank, the next lower distinct
health gets exactly the previous rank plus one, and null healths are
unranked. -/
theorem claim_C4_dense_rank (t : VolTable)
    (hc : "asset" ∈ t.cols ∧ "volume" ∈ t.cols) (hne : t.rows ≠ []) :
    ∃ out, calculate_liquidity_concentration t = Except.ok out ∧
      (∀ r1 ∈ out, ∀ r2 ∈ out, ∀ v : ℚ,
        r1.liquidity_health = some v → r2.liquidity_health = some v →
        r1.liquidity_rank = r2.liquidity_rank) ∧
      (∀ r1 ∈ out, ∀ r2 ∈ out, ∀ v w : ℚ,
        r1.liquidity_health = some v → r2.liquidity_health = some w → w < v →
        (∀ r3 ∈ out, ∀ u : ℚ, r3.liquidity_health = some u → ¬ (w < u ∧ u < v)) →
        ∃ n, r1.liquidity_rank = some n ∧ r2.liquidity_rank = some (n + 1)) ∧
      (∀ r ∈ out, r.liquidity_health = none → r.liquidity_rank = none) := by
  refine ⟨concRows t, calcLiq_eq_ok t hc hne, ?_, ?_, ?_⟩
  · intro r1 hr1 r2 hr2 v hv1 hv2
    rw [concRows_rank_formula t r1 hr1, concRows_rank_formula t r2 hr2, hv1, hv2]
  · intro r1 hr1 r2 hr2 v w hv hw hwv hbet
    set M := (((concBase t).map (·.liquidity_health)).filterMap id).dedup with hM
    have hnd : M.Nodup := List.nodup_dedup _
    have hvM : v ∈ M := by
      rw [hM, List.mem_dedup, health_mem_rows_iff]
      exact ⟨r1, hr1, hv⟩
    have hbetM : ∀ u ∈ M, ¬ (w < u ∧ u < v) := by
      intro u hu
      rw [hM, List.mem_dedup, health_mem_rows_iff] at hu
      obtain ⟨r3, hr3, hru⟩ := hu
      exact hbet r3 hr3 u hru
    have hcnt := countP_between v w M hnd hvM hwv hbetM
    refine ⟨1 + M.countP (fun u => decide (v < u)), ?_, ?_⟩
    · rw [concRows_rank_formula t r1 hr1, hv, Option.map_some']
    · rw [concRows_rank_formula t r2 hr2, hw, Option.map_some', hcnt]
      exact congrArg some (by omega)
  · intro r hr hnone
    rw [concRows_rank_formula t r hr, hnone, Option.map_none']
/-! ## Concrete scenario and witness tables -/

/-- The spec's scenario table: asset `BBB` with volumes [10,20,30,5,5,5,5]. -/
def tableBBB : VolTable :=
  { cols := ["asset", "volume"]
    rows := [⟨"BBB", some 10⟩, ⟨"BBB", some 20⟩, ⟨"BBB", some 30⟩,
             ⟨"BBB", some 5⟩, ⟨"BBB", some 5⟩, ⟨"BBB", some 5⟩, ⟨"BBB", some 5⟩] }

/-- Claim C9: on the scenario table the scorer reports
top5_volume = 70, total_volume = 80, top5_share = 0.875, risk High and
liquidity_health = 12.5. -/
theorem claim_C9_bbb_scenario :
    calculate_liquidity_concentration tableBBB =
      Except.ok [{ asset := "BBB", total_volume := some 80, top5_volume := some 70,
                   top5_share := some (7/8), liquidity_health := some (25/2),
                   concentration_risk := "High", liquidity_rank := some 1 }] := by
  have hk : assetKeys tableBBB = ["BBB"] := by
    norm_num [assetKeys, tableBBB, List.insertionSort, List.orderedInsert]
  have hv : volsOf tableBBB "BBB" = [10, 20, 30, 5, 5, 5, 5] := by
    norm_num [volsOf, tableBBB, List.filterMap_cons, List.filter_cons]
  have hrow : mkConcRow "BBB" [10, 20, 30, 5, 5, 5, 5] =
      { asset := "BBB", total_volume := some 80, top5_volume := some 70,
        top5_share := some (7/8), liquidity_health := some (25/2),
        concentration_risk := "High", liquidity_rank := none } := by
    simp only [mkConcRow]
    rw [if_neg (by simp)]
    norm_num [shareOf, top5Volume, roundTo, roundHalfEven, Int.fract,
      classifyRisk, List.insertionSort, List.orderedInsert]
  rw [calcLiq_eq_ok tableBBB ⟨by norm_num [tableBBB], by norm_num [tableBBB]⟩
    (by simp [tableBBB])]
  simp only [concRows, concRanks, concBase, hk, List.map_cons, List.map_nil, hv, hrow]
  norm_num [denseRankDesc, List.filterMap_cons, List.dedup_cons_of_not_mem,
    List.countP_cons]

/-- Witness table for C2: one asset whose top-5 share is defined. -/
def tableWC2 : VolTable :=
  { cols := ["asset", "volume"], rows := [⟨"X", some 3⟩, ⟨"X", some 2⟩] }

theorem claim_C2_witness :
    ("asset" ∈ tableWC2.cols ∧ "volume" ∈ tableWC2.cols) ∧ tableWC2.rows ≠ [] ∧
      (∃ out, calculate_liquidity_concentration tableWC2 = Except.ok out ∧
        ∀ r ∈ out,
          (shareOf (volsOf tableWC2 r.asset) = none → r.concentration_risk = "Unknown") ∧
          (r.top5_share = none → r.concentration_risk = "Unknown") ∧
          ∀ s, shareOf (volsOf tableWC2 r.asset) = some s →
            (3/5 < s → r.concentration_risk = "High") ∧
            (2/5 ≤ s → s ≤ 3/5 → r.concentration_risk = "Medium") ∧
            (s < 2/5 → r.concentration_risk = "Low") ∧
            (s = 3/5 → r.concentration_risk = "Medium")) :=
  ⟨⟨by simp [tableWC2], by simp [tableWC2]⟩, by simp [tableWC2],
    claim_C2_risk_thresholds tableWC2 ⟨by simp [tableWC2], by simp [tableWC2]⟩
      (by simp [tableWC2])⟩

/-- Witness table for C4: a tied pair of healths, a lower health, and a
null health. -/
def tableWC4 : VolTable :=
  { cols := ["asset", "volume"]
    rows := [⟨"A", some 1⟩, ⟨"A", some 1⟩, ⟨"A", some 1⟩, ⟨"A", some 1⟩,
             ⟨"A", some 1⟩, ⟨"A", some 5⟩,
             ⟨"B", some 1⟩, ⟨"B", some 1⟩, ⟨"B", some 1⟩, ⟨"B", some 1⟩,
             ⟨"B", some 1⟩, ⟨"B", some 5⟩,
             ⟨"C", some 1⟩, ⟨"C", some 1⟩, ⟨"C", some 1⟩, ⟨"C", some 1⟩,
             ⟨"C", some 1⟩, ⟨"C", some 1⟩, ⟨"C", some 1⟩, ⟨"C", some 1⟩,
             ⟨"C", some 1⟩, ⟨"C", some 1⟩,
             ⟨"D", none⟩] }

theorem claim_C4_witness :
    ("asset" ∈ tableWC4.cols ∧ "volume" ∈ tableWC4.cols) ∧ tableWC4.rows ≠ [] ∧
      (∃ out, calculate_liquidity_concentration tableWC4 = Except.ok out ∧
        (∀ r1 ∈ out, ∀ r2 ∈ out, ∀ v : ℚ,
          r1.liquidity_health = some v → r2.liquidity_health = some v →
          r1.liquidity_rank = r2.liquidity_rank) ∧
        (∀ r1 ∈ out, ∀ r2 ∈ out, ∀ v w : ℚ,
          r1.liquidity_health = some v → r2.liquidity_health = some w → w < v →
          (∀ r3 ∈ out, ∀ u : ℚ, r3.liquidity_health = some u → ¬ (w < u ∧ u < v)) →
          ∃ n, r1.liquidity_rank = some n ∧ r2.liquidity_rank = some (n + 1)) ∧
        (∀ r ∈ out, r.liquidity_health = none → r.liquidity_rank = none)) :=
  ⟨⟨by simp [tableWC4], by simp [tableWC4]⟩, by simp [tableWC4],
    claim_C4_dense_rank tableWC4 ⟨by simp [tableWC4], by simp [tableWC4]⟩
      (by simp [tableWC4])⟩

/-- Witness table for C8: non-negative volumes, including a zero and a
null. -/
def tableWC8 : VolTable :=
  { cols := ["asset", "volume"]
    rows := [⟨"A", some 1⟩, ⟨"A", some 0⟩, ⟨"B", none⟩] }

theorem claim_C8_witness :
    (∀ r ∈ tableWC8.rows, ∀ v, r.volume = some v → 0 ≤ v) ∧
      (∀ out, calculate_liquidity_concentration tableWC8 = Except.ok out →
        ∀ r ∈ out,
          (r.top5_share = none ∨ ∃ s, r.top5_share = some s ∧ 0 ≤ s ∧ s ≤ 1) ∧
          (r.liquidity_health = none ∨
            ∃ x, r.liquidity_health = some x ∧ 0 ≤ x ∧ x ≤ 100)) := by
  have hvol : ∀ r ∈ tableWC8.rows, ∀ v, r.volume = some v → 0 ≤ v := by
    intro r hr v hv
    simp only [tableWC8, List.mem_cons, List.not_mem_nil, or_false] at hr
    rcases hr with rfl | rfl | rfl <;> simp_all
    all_goals linarith
  exact ⟨hvol, claim_C8_share_health_ranges tableWC8 hvol⟩


/-! ## Helper lemmas about the comparator -/

/-- A KPI row with none of the four scored cells null. -/
def kpiNonNull (r : KpiRow) : Prop :=
  r.momentum ≠ none ∧ r.liquidity_proxy ≠ none ∧
    r.volume_trend ≠ none ∧ r.downside_risk ≠ none

lemma seqOption_of_ne_none {α : Type} :
    ∀ (l : List (Option α)), (∀ x ∈ l, x ≠ none) → ∃ ys, seqOption l = some ys := by
  intro l
  induction l with
  | nil => exact fun _ => ⟨[], rfl⟩
  | cons x rest ih =>
    intro h
    cases x with
    | none => exact absurd rfl (h none (List.mem_cons_self _ _))
    | some a =>
      obtain ⟨ys, hys⟩ := ih (fun y hy => h y (List.mem_cons_of_mem _ hy))
      exact ⟨a :: ys, by simp [seqOption, hys]⟩

lemma rankColDesc_ne_none {l : List (Option ℚ)} (h : ∀ x ∈ l, x ≠ none) :
    ∀ y ∈ rankColDesc l, y ≠ none := by
  intro y hy
  obtain ⟨x, hx, rfl⟩ := List.mem_map.mp hy
  cases x with
  | none => exact absurd rfl (h none hx)
  | some v => simp

lemma rankColAsc_ne_none {l : List (Option ℚ)} (h : ∀ x ∈ l, x ≠ none) :
    ∀ y ∈ rankColAsc l, y ≠ none := by
  intro y hy
  obtain ⟨x, hx, rfl⟩ := List.mem_map.mp hy
  cases x with
  | none => exact absurd rfl (h none hx)
  | some v => simp

lemma mem_sortedSelectedRows {kpi : KpiTable} {sel : List String} {r : KpiRow}
    (hr : r ∈ sortedSelectedRows kpi sel) : r ∈ kpi.rows :=
  List.mem_of_mem_filter ((List.perm_insertionSort _ _).mem_iff.mp hr)

/-- When no selected row has a null KPI cell, all four rank casts
succeed and the comparator tail returns the sorted display rows with
the warnings passed through. -/
lemma compareWith_ok (kpi : KpiTable) (w : List CompareWarning) (sel : List String)
    (hnn : ∀ r ∈ kpi.rows, kpiNonNull r) :
    compareWith kpi w sel =
      Except.ok (w, (sortedSelectedRows kpi sel).map toDisplay) := by
  have hcol : ∀ (f : KpiRow → Option ℚ), (∀ r ∈ kpi.rows, f r ≠ none) →
      ∀ x ∈ (sortedSelectedRows kpi sel).map f, x ≠ none := by
    intro f hf x hx
    obtain ⟨r, hr, rfl⟩ := List.mem_map.mp hx
    exact hf r (mem_sortedSelectedRows hr)
  obtain ⟨y1, h1⟩ := seqOption_of_ne_none _
    (rankColDesc_ne_none (hcol (·.momentum) (fun r hr => (hnn r hr).1)))
  obtain ⟨y2, h2⟩ := seqOption_of_ne_none _
    (rankColDesc_ne_none (hcol (·.liquidity_proxy) (fun r hr => (hnn r hr).2.1)))
  obtain ⟨y3, h3⟩ := seqOption_of_ne_none _
    (rankColDesc_ne_none (hcol (·.volume_trend) (fun r hr => (hnn r hr).2.2.1)))
  obtain ⟨y4, h4⟩ := seqOption_of_ne_none _
    (rankColAsc_ne_none (hcol (·.downside_risk) (fun r hr => (hnn r hr).2.2.2)))
  simp only [compareWith, h1, h2, h3, h4]

/-- Extra warnings only prepend to the comparator tail's warning list;
they change no error and no row. -/
lemma compareWith_warn_map (kpi : KpiTable) (sel : List String)
    (w wx : List CompareWarning) :
    compareWith kpi (wx ++ w) sel =
      (compareWith kpi w sel).map (fun p => (wx ++ p.1, p.2)) := by
  simp only [compareWith]
  cases h1 : seqOption (rankColDesc ((sortedSelectedRows kpi sel).map (·.momentum))) with
  | none => simp [Except.map]
  | some y1 =>
    cases h2 : seqOption (rankColDesc ((sortedSelectedRows kpi sel).map (·.liquidity_proxy))) with
    | none => simp [Except.map]
    | some y2 =>
      cases h3 : seqOption (rankColDesc ((sortedSelectedRows kpi sel).map (·.volume_trend))) with
      | none => simp [Except.map]
      | some y3 =>
        cases h4 : seqOption (rankColAsc ((sortedSelectedRows kpi sel).map (·.downside_risk))) with
        | none => simp [Except.map]
        | some y4 => simp [Except.map]

lemma kpiCols_filter_nil {kpi : KpiTable} (h : ∀ c ∈ requiredKpiCols, c ∈ kpi.cols) :
    requiredKpiCols.filter (fun c => decide (¬ c ∈ kpi.cols)) = [] := by
  rw [List.filter_eq_nil_iff]
  intro c hc
  simp [h c hc]

lemma compare_assets_eq (kpi : KpiTable) (assets : Option (List String))
    (hcols : ∀ c ∈ requiredKpiCols, c ∈ kpi.cols) :
    compare_assets kpi assets =
      match selectAssets kpi assets with
      | Except.error e => Except.error e
      | Except.ok (w, sel) => compareWith kpi w sel := by
  simp only [compare_assets]
  rw [kpiCols_filter_nil hcols]
  simp

lemma selectAssets_ok_eq (kpi : KpiTable) (l : List String)
    (h2 : ¬ l.length < 2) (h5 : ¬ 5 < l.length)
    (hge : ¬ (l.filter (fun a => decide (a ∈ kpiAvailable kpi))).length < 2) :
    selectAssets kpi (some l) =
      Except.ok
        ((if l.filter (fun a => decide (¬ a ∈ kpiAvailable kpi)) ≠ []
          then [CompareWarning.skippedInvalid
                  (l.filter (fun a => decide (¬ a ∈ kpiAvailable kpi)))] else []),
         l.filter (fun a => decide (a ∈ kpiAvailable kpi))) := by
  simp only [selectAssets]
  rw [if_neg h2]
  simp only [if_neg h5]
  rw [if_neg hge]
  simp

lemma selectAssets_err_eq (kpi : KpiTable) (l : List String)
    (h2 : ¬ l.length < 2) (h5 : ¬ 5 < l.length)
    (hlt : (l.filter (fun a => decide (a ∈ kpiAvailable kpi))).length < 2) :
    selectAssets kpi (some l) =
      Except.error (CompareError.notEnoughValid
        (l.filter (fun a => decide (a ∈ kpiAvailable kpi))).length
        (kpiAvailable kpi)) := by
  simp only [selectAssets]
  rw [if_neg h2]
  simp only [if_neg h5]
  rw [if_pos hlt]

lemma selectAssets_trunc_eq (kpi : KpiTable) (l : List String) (hl : 5 < l.length) :
    selectAssets kpi (some l) =
      if ((l.take 5).filter (fun a => decide (a ∈ kpiAvailable kpi))).length < 2
      then Except.error (CompareError.notEnoughValid
        ((l.take 5).filter (fun a => decide (a ∈ kpiAvailable kpi))).length
        (kpiAvailable kpi))
      else Except.ok
        (CompareWarning.truncated l.length ::
          (if (l.take 5).filter (fun a => decide (¬ a ∈ kpiAvailable kpi)) ≠ []
           then [CompareWarning.skippedInvalid
                   ((l.take 5).filter (fun a => decide (¬ a ∈ kpiAvailable kpi)))]
           else []),
         (l.take 5).filter (fun a => decide (a ∈ kpiAvailable kpi))) := by
  have e1 : ¬ l.length < 2 := by omega
  simp only [selectAssets]
  rw [if_neg e1]
  simp only [if_pos hl]
  split_ifs <;> simp

lemma selectAssets_truncates (kpi : KpiTable) (l : List String) (hl : 5 < l.length) :
    selectAssets kpi (some l) =
      (selectAssets kpi (some (l.take 5))).map
        (fun p => (CompareWarning.truncated l.length :: p.1, p.2)) := by
  have e3 : (l.take 5).length = 5 := by rw [List.length_take]; omega
  have e2 : ¬ (l.take 5).length < 2 := by omega
  have e5 : ¬ 5 < (l.take 5).length := by omega
  rw [selectAssets_trunc_eq kpi l hl]
  by_cases hs :
    ((l.take 5).filter (fun a => decide (a ∈ kpiAvailable kpi))).length < 2
  · rw [if_pos hs, selectAssets_err_eq kpi (l.take 5) e2 e5 hs]
    simp [Except.map]
  · rw [if_neg hs, selectAssets_ok_eq kpi (l.take 5) e2 e5 hs]
    simp [Except.map]


/-! ## Claim theorems (comparator) -/

/-- Claim C5: an explicit list longer than five is truncated to its
first five entries (warning signalled, before existence filtering);
entries absent from the data are dropped with a warning, not an error;
and fewer than two surviving entries raise a selection error naming the
available assets. -/
theorem claim_C5_selection (kpi : KpiTable) (l : List String)
    (hcols : ∀ c ∈ requiredKpiCols, c ∈ kpi.cols) :
    (5 < l.length →
      compare_assets kpi (some l) =
        (compare_assets kpi (some (l.take 5))).map
          (fun p => (CompareWarning.truncated l.length :: p.1, p.2))) ∧
    (2 ≤ l.length → ¬ 5 < l.length →
      (∀ r ∈ kpi.rows, kpiNonNull r) →
      2 ≤ (l.filter (fun a => decide (a ∈ kpiAvailable kpi))).length →
      ∃ w rows, compare_assets kpi (some l) = Except.ok (w, rows) ∧
        (l.filter (fun a => decide (¬ a ∈ kpiAvailable kpi)) ≠ [] →
          CompareWarning.skippedInvalid
            (l.filter (fun a => decide (¬ a ∈ kpiAvailable kpi))) ∈ w) ∧
        (∀ r ∈ rows, r.Asset ∈ l.filter (fun a => decide (a ∈ kpiAvailable kpi)))) ∧
    (2 ≤ l.length → ¬ 5 < l.length →
      (l.filter (fun a => decide (a ∈ kpiAvailable kpi))).length < 2 →
      compare_assets kpi (some l) =
        Except.error (CompareError.notEnoughValid
          (l.filter (fun a => decide (a ∈ kpiAvailable kpi))).length
          (kpiAvailable kpi))) := by
  refine ⟨?_, ?_, ?_⟩
  · intro hl
    rw [compare_assets_eq kpi _ hcols, compare_assets_eq kpi _ hcols,
      selectAssets_truncates kpi l hl]
    cases hsel : selectAssets kpi (some (l.take 5)) with
    | error e => simp [Except.map]
    | ok p =>
      obtain ⟨w, sel⟩ := p
      simp only [Except.map]
      have hw := compareWith_warn_map kpi sel w [CompareWarning.truncated l.length]
      simpa using hw
  · intro h2 h5 hnn hge
    rw [compare_assets_eq kpi _ hcols,
      selectAssets_ok_eq kpi l (by omega) h5 (by omega)]
    dsimp only
    rw [compareWith_ok kpi _ _ hnn]
    refine ⟨_, _, rfl, ?_, ?_⟩
    · intro hne
      rw [if_pos hne]
      simp
    · intro r hr
      obtain ⟨r', hr', rfl⟩ := List.mem_map.mp hr
      have h1 : r' ∈ selectedRows kpi
          (l.filter (fun a => decide (a ∈ kpiAvailable kpi))) :=
        (List.perm_insertionSort _ _).mem_iff.mp hr'
      have h2' := List.of_mem_filter h1
      simpa [toDisplay] using h2'
  · intro h2 h5 hlt
    rw [compare_assets_eq kpi _ hcols, selectAssets_err_eq kpi l (by omega) h5 hlt]

/-- Witness table for C5: four valid assets with non-null KPI cells. -/
def tableWC5 : KpiTable :=
  { cols := ["asset", "momentum", "liquidity_proxy", "volume_trend", "downside_risk"]
    rows := [⟨"AA", some 1, some 1, some 1, some 1⟩,
             ⟨"BB", some 2, some 1, some 1, some 1⟩,
             ⟨"CC", some 3, some 1, some 1, some 1⟩,
             ⟨"DD", some 4, some 1, some 1, some 1⟩] }

/-- The six-entry request list of the spec's scenario: two entries are
absent from the data. -/
def listWC5 : List String := ["AA", "BB", "CC", "DD", "EE", "FF"]

theorem claim_C5_witness :
    (∀ c ∈ requiredKpiCols, c ∈ tableWC5.cols) ∧
      compare_assets tableWC5 (some listWC5) =
        (compare_assets tableWC5 (some (listWC5.take 5))).map
          (fun p => (CompareWarning.truncated listWC5.length :: p.1, p.2)) :=
  ⟨fun c hc => hc, (claim_C5_selection tableWC5 listWC5 (fun c hc => hc)).1
    (by norm_num [listWC5])⟩

/-- The failing input of claim C6: a selected asset with a null
momentum KPI. -/
def tableC6 : KpiTable :=
  { cols := ["asset", "momentum", "liquidity_proxy", "volume_trend", "downside_risk"]
    rows := [⟨"AA", none, some 1, some 1, some 1⟩,
             ⟨"BB", some 1, some 1, some 1, some 1⟩] }

/-- Claim C6 is a code bug: on a schema-correct table with two selected
assets, a single null `momentum` cell makes `compare_assets` raise (the
NaN rank hits `.astype(int)`) instead of returning normally. -/
theorem claim_C6_null_kpi_raises :
    compare_assets tableC6 none =
      Except.error (CompareError.rankCastOnNull "momentum") := by
  rw [compare_assets_eq tableC6 none (fun c hc => hc)]
  have hsel : selectAssets tableC6 none = Except.ok ([], ["AA", "BB"]) := by
    simp [selectAssets, tableC6]
  rw [hsel]
  dsimp only
  have hsort : sortedSelectedRows tableC6 ["AA", "BB"] = tableC6.rows := by
    simp [sortedSelectedRows, selectedRows, tableC6,
      List.insertionSort, List.orderedInsert]
    decide
  have hm : seqOption (rankColDesc ((sortedSelectedRows tableC6 ["AA", "BB"]).map
      (·.momentum))) = none := by
    rw [hsort]
    simp [tableC6, rankColDesc, seqOption]
  simp only [compareWith, hm]

/-- The failing input of claim C1: two assets whose alphabetical order
is the reverse of their spec-score order. -/
def tableC1 : KpiTable :=
  { cols := ["asset", "momentum", "liquidity_proxy", "volume_trend", "downside_risk"]
    rows := [⟨"AA", some 0, some 0, some 0, some 50⟩,
             ⟨"ZZ", some 100, some 100, some 0, some 0⟩] }

/-- Claim C1 is a code bug: the comparator under `src/` computes no
weighted composite score and no Rank; it returns the KPI cells sorted
by asset name ascending.  On `tableC1` the row order is AA before ZZ,
although the spec's composite score of ZZ (100) exceeds that of AA
(15), so the output is not sorted by the claimed score. -/
theorem claim_C1_no_weighted_score :
    compare_assets tableC1 none =
      Except.ok ([], [{ Asset := "AA", Momentum := some 0, LiquidityProxy := some 0,
                        VolumeTrend := some 0, DownsideRisk := some 50 },
                      { Asset := "ZZ", Momentum := some 100, LiquidityProxy := some 100,
                        VolumeTrend := some 0, DownsideRisk := some 0 }]) ∧
      specWeightedScoreNoConc ⟨"AA", some 0, some 0, some 0, some 50⟩ = 15 ∧
      specWeightedScoreNoConc ⟨"ZZ", some 100, some 100, some 0, some 0⟩ = 100 := by
  refine ⟨?_, ?_, ?_⟩
  · rw [compare_assets_eq tableC1 none (fun c hc => hc)]
    have hsel : selectAssets tableC1 none = Except.ok ([], ["AA", "ZZ"]) := by
      simp [selectAssets, tableC1]
    rw [hsel]
    dsimp only
    have hnn : ∀ r ∈ tableC1.rows, kpiNonNull r := by
      intro r hr
      simp only [tableC1, List.mem_cons, List.not_mem_nil, or_false] at hr
      rcases hr with rfl | rfl <;> simp [kpiNonNull]
    rw [compareWith_ok tableC1 [] ["AA", "ZZ"] hnn]
    have hsort : sortedSelectedRows tableC1 ["AA", "ZZ"] = tableC1.rows := by
      simp [sortedSelectedRows, selectedRows, tableC1,
        List.insertionSort, List.orderedInsert]
      decide
    rw [hsort]
    simp [tableC1, toDisplay]
  · norm_num [specWeightedScoreNoConc, clampKpi]
  · norm_num [specWeightedScoreNoConc, clampKpi]

/-! ## Claim C10 -/

/-- In a duplicate-free list, filtering to the members of its own
prefix returns exactly that prefix. -/
lemma filter_mem_take {α : Type} [DecidableEq α] :
    ∀ (L : List α), L.Nodup → ∀ n : ℕ,
      L.filter (fun a => decide (a ∈ L.take n)) = L.take n := by
  intro L
  induction L with
  | nil => intro _ n; simp
  | cons a L ih =>
    intro hnd n
    rw [List.nodup_cons] at hnd
    cases n with
    | zero => simp
    | succ m =>
      have htail : L.filter (fun x => decide (x ∈ a :: L.take m)) =
          L.filter (fun x => decide (x ∈ L.take m)) := by
        apply List.filter_congr
        intro x hx
        have hxa : x ≠ a := fun h => hnd.1 (h ▸ hx)
        simp [List.mem_cons, hxa]
      rw [List.take_succ_cons, List.filter_cons, if_pos (by simp), htail, ih hnd.2 m]

/-- The counterexample table of claim C10: six assets, all KPI cells
present. -/
def tableC10 : KpiTable :=
  { cols := ["asset", "momentum", "liquidity_proxy", "volume_trend", "downside_risk"]
    rows := [⟨"A1", some 1, some 1, some 1, some 1⟩,
             ⟨"A2", some 1, some 1, some 1, some 1⟩,
             ⟨"A3", some 1, some 1, some 1, some 1⟩,
             ⟨"A4", some 1, some 1, some 1, some 1⟩,
             ⟨"A5", some 1, some 1, some 1, some 1⟩,
             ⟨"A6", some 1, some 1, some 1, some 1⟩] }

/-- Claim C10 as stated is false on the code: with six assets and no
explicit list, the comparator returns five rows, not one per input
asset. -/
theorem claim_C10_counterexample :
    tableC10.rows.length = 6 ∧
      ∃ w rows, compare_assets tableC10 none = Except.ok (w, rows) ∧
        rows.length = 5 ∧ rows.length ≠ tableC10.rows.length := by
  refine ⟨by norm_num [tableC10], ?_⟩
  rw [compare_assets_eq tableC10 none (fun c hc => hc)]
  have hsel : selectAssets tableC10 none =
      Except.ok ([CompareWarning.firstFive 6], ["A1", "A2", "A3", "A4", "A5"]) := by
    simp [selectAssets, tableC10]
  rw [hsel]
  dsimp only
  have hnn : ∀ r ∈ tableC10.rows, kpiNonNull r := by
    intro r hr
    simp only [tableC10, List.mem_cons, List.not_mem_nil, or_false] at hr
    rcases hr with rfl | rfl | rfl | rfl | rfl | rfl <;> simp [kpiNonNull]
  rw [compareWith_ok tableC10 _ _ hnn]
  have hfil : selectedRows tableC10 ["A1", "A2", "A3", "A4", "A5"] =
      [⟨"A1", some 1, some 1, some 1, some 1⟩,
       ⟨"A2", some 1, some 1, some 1, some 1⟩,
       ⟨"A3", some 1, some 1, some 1, some 1⟩,
       ⟨"A4", some 1, some 1, some 1, some 1⟩,
       ⟨"A5", some 1, some 1, some 1, some 1⟩] := by
    simp [selectedRows, tableC10]
  refine ⟨_, _, rfl, ?_, ?_⟩
  · rw [List.length_map, sortedSelectedRows,
      (List.perm_insertionSort _ _).length_eq, hfil]
    rfl
  · rw [List.length_map, sortedSelectedRows,
      (List.perm_insertionSort _ _).length_eq, hfil]
    norm_num [tableC10]

/-- Claim C10 amended: with no explicit list the comparator selects the
first five assets by input row order, so a table with more than five
(distinct, fully-populated) assets yields exactly five comparison rows
— the first five assets — not one row per input asset. -/
theorem claim_C10_first_five (kpi : KpiTable)
    (hcols : ∀ c ∈ requiredKpiCols, c ∈ kpi.cols)
    (hnodup : (kpi.rows.map (·.asset)).Nodup)
    (hnn : ∀ r ∈ kpi.rows, kpiNonNull r)
    (hlen : 5 < kpi.rows.length) :
    ∃ w rows, compare_assets kpi none = Except.ok (w, rows) ∧
      rows.length = 5 ∧ rows.length ≠ kpi.rows.length ∧
      (rows.map (·.Asset)).Perm ((kpi.rows.map (·.asset)).take 5) := by
  rw [compare_assets_eq kpi none hcols]
  have hsel : selectAssets kpi none =
      Except.ok ([CompareWarning.firstFive kpi.rows.length],
        (kpi.rows.map (·.asset)).take 5) := by
    simp [selectAssets, hlen]
  rw [hsel]
  dsimp only
  rw [compareWith_ok kpi _ _ hnn]
  set S := (kpi.rows.map (·.asset)).take 5 with hS
  have hmapmap :
      (((sortedSelectedRows kpi S).map toDisplay).map (·.Asset)) =
        (sortedSelectedRows kpi S).map (·.asset) := by
    rw [List.map_map]
    apply List.map_congr_left
    intro r _
    rfl
  have hfm : (selectedRows kpi S).map (·.asset) =
      (kpi.rows.map (·.asset)).filter (fun a => decide (a ∈ S)) := by
    have h := List.filter_map (fun r : KpiRow => r.asset)
      (p := fun a => decide (a ∈ S)) kpi.rows
    exact h.symm
  have hperm : ((sortedSelectedRows kpi S).map (·.asset)).Perm
      ((kpi.rows.map (·.asset)).take 5) := by
    have h1 : (sortedSelectedRows kpi S).Perm (selectedRows kpi S) :=
      List.perm_insertionSort _ _
    have h2 := h1.map (·.asset)
    rw [hfm, hS, filter_mem_take _ hnodup 5] at h2
    exact h2
  have hlen5 : ((sortedSelectedRows kpi S).map toDisplay).length = 5 := by
    rw [List.length_map]
    have := hperm.length_eq
    rw [List.length_map] at this
    rw [this, List.length_take, List.length_map]
    omega
  refine ⟨_, _, rfl, hlen5, ?_, ?_⟩
  · rw [hlen5]; omega
  · rw [hmapmap]; exact hperm

/-- Witness table for the amended C10: seven distinct fully-populated
assets. -/
def tableWC10 : KpiTable :=
  { cols := ["asset", "momentum", "liquidity_proxy", "volume_trend", "downside_risk"]
    rows := [⟨"B1", some 1, some 1, some 1, some 1⟩,
             ⟨"B2", some 1, some 1, some 1, some 1⟩,
             ⟨"B3", some 1, some 1, some 1, some 1⟩,
             ⟨"B4", some 1, some 1, some 1, some 1⟩,
             ⟨"B5", some 1, some 1, some 1, some 1⟩,
             ⟨"B6", some 1, some 1, some 1, some 1⟩,
             ⟨"B7", some 1, some 1, some 1, some 1⟩] }

theorem claim_C10_first_five_witness :
    ((tableWC10.rows.map (·.asset)).Nodup ∧ 5 < tableWC10.rows.length) ∧
      ∃ w rows, compare_assets tableWC10 none = Except.ok (w, rows) ∧
        rows.length = 5 ∧ rows.length ≠ tableWC10.rows.length ∧
        (rows.map (·.Asset)).Perm ((tableWC10.rows.map (·.asset)).take 5) := by
  have hnodup : (tableWC10.rows.map (·.asset)).Nodup := by
    simp [tableWC10]
  have hnn : ∀ r ∈ tableWC10.rows, kpiNonNull r := by
    intro r hr
    simp only [tableWC10, List.mem_cons, List.not_mem_nil, or_false] at hr
    rcases hr with rfl | rfl | rfl | rfl | rfl | rfl | rfl <;> simp [kpiNonNull]
  exact ⟨⟨hnodup, by norm_num [tableWC10]⟩,
    claim_C10_first_five tableWC10 (fun c hc => hc) hnodup hnn
      (by norm_num [tableWC10])⟩

/-! ## Claim C3 (spec-modelled KPI downside risk) -/

lemma pctChanges_nil_of_short (prices : List ℚ) (h : prices.length < 2) :
    pctChanges prices = [] := by
  match prices with
  | [] => rfl
  | [_] => rfl
  | a :: b :: r => exact absurd h (by simp)

/-- Claim C3 (spec-modelled, the KPI engine is absent from `src/`):
`downside_risk` is 100 times the sample standard deviation (Bessel's
correction, via `sampleVar`) of the negative period returns, and is 0.0
— a value, not null — when there are no negative returns or fewer than
two observations. -/
theorem claim_C3_downside_risk (prices : List ℚ) :
    (2 ≤ ((pctChanges prices).filter (fun r => decide (r < 0))).length →
      downside_risk prices =
        100 * Real.sqrt (sampleVar
          ((pctChanges prices).filter (fun r => decide (r < 0))))) ∧
    ((pctChanges prices).filter (fun r => decide (r < 0)) = [] →
      downside_risk prices = 0) ∧
    (prices.length < 2 → downside_risk prices = 0) := by
  refine ⟨?_, ?_, ?_⟩
  · intro h
    simp [downside_risk, h]
  · intro h
    simp [downside_risk, h]
  · intro h
    simp [downside_risk, pctChanges_nil_of_short prices h]

theorem claim_C3_witness :
    2 ≤ ((pctChanges [(10 : ℚ), 9, 8]).filter (fun r => decide (r < 0))).length ∧
      downside_risk [(10 : ℚ), 9, 8] =
        100 * Real.sqrt (sampleVar
          ((pctChanges [(10 : ℚ), 9, 8]).filter (fun r => decide (r < 0)))) :=
  ⟨by norm_num [pctChanges], (claim_C3_downside_risk [10, 9, 8]).1
    (by norm_num [pctChanges])⟩
